import Mathlib

/-!
Shallow embedding of `src/ts-experiments/src/id-caching.ts`.

JavaScript numbers are idealised as exact rationals extended with the
special values `NaN`, `Infinity` and `-Infinity` (`JSNum`; negative zero is
not modelled because no computation in this program produces it).  The
outputs of the external `uuid` library's `uuidv4()` are abstracted as a
stream `gen : Nat -> String` consumed in order, with a position counter
threaded through the state.  The wall-clock durations measured with
`performance.now()` around each `generateId()` call are abstracted as a
stream `dur : Nat -> Rat` giving the milliseconds measured for the k-th
timed call of a `runTrials` invocation.
-/

namespace IdCaching

/-- A JavaScript number: an exact rational or one of the special values. -/
inductive JSNum where
  | nan : JSNum
  | inf : JSNum
  | negInf : JSNum
  | num : ℚ → JSNum
  deriving DecidableEq

/-- JavaScript `>` on numbers: any comparison involving `NaN` is false. -/
def jsGt : JSNum → JSNum → Bool
  | .nan, _ => false
  | _, .nan => false
  | .inf, .inf => false
  | .inf, _ => true
  | .negInf, _ => false
  | .num _, .inf => false
  | .num _, .negInf => true
  | .num a, .num b => decide (b < a)

/-- JavaScript division of two finite numbers (the denominator `0` here is
`+0`, the only zero this program can produce). -/
def jsDiv (a b : ℚ) : JSNum :=
  if b = 0 then (if a = 0 then .nan else if 0 < a then .inf else .negInf)
  else .num (a / b)

/-- JavaScript division on full `JSNum` values. -/
def jsDivN : JSNum → JSNum → JSNum
  | .nan, _ => .nan
  | _, .nan => .nan
  | .inf, .inf => .nan
  | .inf, .negInf => .nan
  | .negInf, .inf => .nan
  | .negInf, .negInf => .nan
  | .inf, .num b => if 0 ≤ b then .inf else .negInf
  | .negInf, .num b => if 0 ≤ b then .negInf else .inf
  | .num _, .inf => .num 0
  | .num _, .negInf => .num 0
  | .num a, .num b => jsDiv a b

/-- `Number.prototype.toFixed(2)` on a nonnegative rational: the integer `n`
minimising the distance of `n / 100` to the argument, ties resolved to the
larger `n`, rendered with exactly two digits after the point. -/
def fmtFixed2Pos (q : ℚ) : String :=
  let n : ℕ := (⌊q * 100 + 1 / 2⌋).toNat
  toString (n / 100) ++ "." ++ (if n % 100 < 10 then "0" else "") ++ toString (n % 100)

/-- `Number.prototype.toFixed(2)` on a finite rational (sign handled as in
the ECMAScript algorithm: formatted on the absolute value, "-" prepended). -/
def fmtFixed2 (q : ℚ) : String :=
  if q < 0 then "-" ++ fmtFixed2Pos (-q) else fmtFixed2Pos q

/-- `Number.prototype.toFixed(2)` on a `JSNum` value. -/
def jsToFixed2 : JSNum → String
  | .nan => "NaN"
  | .inf => "Infinity"
  | .negInf => "-Infinity"
  | .num q => fmtFixed2 q

/-- State of a `CachedIdGenerator` instance: the identifier pool together
with the number of `uuidv4()` outputs consumed so far (the position in the
abstract uuid stream). -/
structure CachedIdGenerator where
  ctr : ℕ
  idPool : List String
  deriving DecidableEq

/-- `regenerateIdPool` (id-caching.ts lines 56-62): clears the pool and
pushes `poolSize` fresh uuids in stream order.  The method is declared
`async` but its body contains no `await`, so in the source it runs to
completion synchronously inside the call that invokes it; the returned
promise is ignored.  `poolSize` is the instance constant `ID_POOL_SIZE`,
kept as a parameter (the source fixes it to 1000000, see `ID_POOL_SIZE`). -/
def regenerateIdPool (gen : ℕ → String) (poolSize : ℕ) (s : CachedIdGenerator) :
    CachedIdGenerator :=
  { ctr := s.ctr + poolSize,
    idPool := (List.range poolSize).map fun i => gen (s.ctr + i) }

/-- The `CachedIdGenerator` constructor (lines 40-43): starts from an empty
pool and immediately regenerates it. -/
def CachedIdGenerator.new (gen : ℕ → String) (poolSize : ℕ) : CachedIdGenerator :=
  regenerateIdPool gen poolSize { ctr := 0, idPool := [] }

/-- JavaScript falsiness of the value returned by `pool.pop()`:
`undefined` (pop on an empty array) and the empty string are falsy. -/
def jsFalsy : Option String → Bool
  | none => true
  | some s => decide (s = "")

/-- `CachedIdGenerator.generateId` (lines 45-54): pop the last pool element;
if the popped value is falsy (`undefined` from an empty pool, or the empty
string), regenerate the whole pool and return one freshly generated uuid;
otherwise return the popped element. -/
def generateId (gen : ℕ → String) (poolSize : ℕ) (s : CachedIdGenerator) :
    String × CachedIdGenerator :=
  let id := s.idPool.getLast?
  let popped : CachedIdGenerator := { s with idPool := s.idPool.dropLast }
  if jsFalsy id then
    let s1 := regenerateIdPool gen poolSize popped
    (gen s1.ctr, { s1 with ctr := s1.ctr + 1 })
  else
    (id.getD "", popped)

/-- Run `n` successive `generateId` calls, collecting the returned
identifiers in call order together with the final state. -/
def runCalls (gen : ℕ → String) (poolSize : ℕ) : ℕ → CachedIdGenerator →
    List String × CachedIdGenerator
  | 0, s => ([], s)
  | n + 1, s =>
    let r := generateId gen poolSize s
    let rest := runCalls gen poolSize n r.2
    (r.1 :: rest.1, rest.2)

/-- States of a `CachedIdGenerator` reachable from construction by
`generateId` calls. -/
inductive Reachable (gen : ℕ → String) (poolSize : ℕ) : CachedIdGenerator → Prop where
  | init : Reachable gen poolSize (CachedIdGenerator.new gen poolSize)
  | step (s : CachedIdGenerator) : Reachable gen poolSize s →
      Reachable gen poolSize (generateId gen poolSize s).2

/-- The source's fixed pool size (line 37). -/
def ID_POOL_SIZE : ℕ := 1000000

/-- The source's fixed per-trial call count (line 65). -/
def ID_COUNT : ℕ := 100000

/-- The source's milliseconds-to-microseconds factor (line 66). -/
def MICROSECONDS_CONVERSION : ℚ := 1000

/-- JavaScript `Array.prototype.slice(a, b)` for `0 ≤ a ≤ b` (the only way
it is used here). -/
def jsSlice (xs : List ℚ) (a b : ℕ) : List ℚ :=
  (xs.drop a).take (b - a)

/-- `runTrials` (lines 68-86).  The generator under test influences only the
measured wall-clock durations, which the embedding abstracts as the stream
`dur` (milliseconds for the k-th timed call, `k = i * idCount + j`); the
nested for-loops pushing onto `times` become a flat block-structured list.
`idCount` is the module constant `ID_COUNT`, kept as a parameter. -/
def runTrials (dur : ℕ → ℚ) (trials idCount : ℕ) : List JSNum :=
  let times : List ℚ :=
    (List.range trials).flatMap fun i =>
      (List.range idCount).map fun j => dur (i * idCount + j) * MICROSECONDS_CONVERSION
  (List.range trials).map fun i =>
    jsDiv ((jsSlice times (i * idCount) ((i + 1) * idCount)).foldl (· + ·) 0)
      ((jsSlice times (i * idCount) ((i + 1) * idCount)).length : ℚ)

/-- Runtime errors a call in this program can surface.  `typeError` is the
JavaScript `TypeError` thrown when a method is invoked on `undefined`.
`configurationError` is the rejection the specification demands for invalid
configuration; no code path of the source ever produces it, and it is
present only so that statements about such a rejection can be written. -/
inductive JsError where
  | typeError : JsError
  | configurationError : JsError
  deriving DecidableEq

/-- One row of the comparison table (lines 98-103): the 1-based trial
number, the two formatted mean strings, and the relative-speed label. -/
structure TableRow where
  trial : ℕ
  normalGeneration : String
  cachedGeneration : String
  difference : String
  deriving DecidableEq

/-- JavaScript coercion of a possibly-`undefined` number to a number, as
performed by arithmetic operators: `undefined` becomes `NaN`. -/
def jsValOf : Option JSNum → JSNum
  | none => .nan
  | some v => v

/-- `x.toFixed(2)` where `x` may be `undefined`: a method access on
`undefined` throws a `TypeError`. -/
def jsToFixed2E : Option JSNum → Except JsError String
  | none => .error .typeError
  | some v => .ok (jsToFixed2 v)

/-- The relative-speed label of lines 93-97: `difference` is the JavaScript
quotient of the two (possibly `undefined`) indexed values, and the label is
"x faster" on `difference > 1`, else "x slower" with the reciprocal. -/
def differenceLabel (normalTime cachedTime : Option JSNum) : String :=
  let difference := jsDivN (jsValOf normalTime) (jsValOf cachedTime)
  if jsGt difference (.num 1) then jsToFixed2 difference ++ "x faster"
  else jsToFixed2 (jsDivN (.num 1) difference) ++ "x slower"

/-- The body of the `printComparisonTable` loop at index `i` (lines 91-103):
index both arrays (out of range yields `undefined`), compute the label, then
build the row object; formatting the two means with `.toFixed(2)` throws if
the indexed value was `undefined`.  The `normalGeneration` string is built
before the `cachedGeneration` string, as in the object literal. -/
def tableRow (normalTimes cachedTimes : List JSNum) (i : ℕ) : Except JsError TableRow := do
  let normalTime := normalTimes.get? i
  let cachedTime := cachedTimes.get? i
  let label := differenceLabel normalTime cachedTime
  let normalStr ← jsToFixed2E normalTime
  let cachedStr ← jsToFixed2E cachedTime
  .ok { trial := i + 1, normalGeneration := normalStr ++ "µs",
        cachedGeneration := cachedStr ++ "µs", difference := label }

/-- The `printComparisonTable` loop over the given index list, pushing rows
in order and propagating the first thrown error. -/
def buildRows (normalTimes cachedTimes : List JSNum) :
    List ℕ → Except JsError (List TableRow)
  | [] => .ok []
  | i :: is => do
    let r ← tableRow normalTimes cachedTimes i
    let rs ← buildRows normalTimes cachedTimes is
    .ok (r :: rs)

/-- `printComparisonTable` (lines 88-106): one loop iteration per index of
`normalTimes`; the value is the table handed to `console.table`, or the
error thrown mid-loop. -/
def printComparisonTable (normalTimes cachedTimes : List JSNum) :
    Except JsError (List TableRow) :=
  buildRows normalTimes cachedTimes (List.range normalTimes.length)

/-- `runExperiment` (lines 108-119): construct the two generators (the
`CachedIdGenerator` constructor eagerly fills its pool of `ID_POOL_SIZE`
identifiers; neither constructor validates anything or can throw), run the
trials for each — the observable result of each `runTrials` call depends
only on the measured durations, abstracted as `durNormal` and `durCached` —
and print the comparison table. -/
def runExperiment (gen : ℕ → String) (durNormal durCached : ℕ → ℚ) (trials : ℕ) :
    Except JsError (List TableRow) :=
  let _cachedIdGenerator := CachedIdGenerator.new gen ID_POOL_SIZE
  let normalTimes := runTrials durNormal trials ID_COUNT
  let cachedTimes := runTrials durCached trials ID_COUNT
  printComparisonTable normalTimes cachedTimes

/-- A concrete uuid stream for witnesses: pairwise distinct non-empty
strings "a", "aa", "aaa", ... -/
def wgen (n : ℕ) : String := String.mk (List.replicate (n + 1) 'a')

theorem wgen_inj : Function.Injective wgen := by
  intro a b h
  have hd : List.replicate (a + 1) 'a' = List.replicate (b + 1) 'a' := congrArg String.data h
  have hl := congrArg List.length hd
  simpa using hl

theorem wgen_ne (n : ℕ) : wgen n ≠ "" := by
  intro h
  have hl := congrArg String.length h
  simp [wgen, String.length] at hl

theorem generateId_falsy (gen : ℕ → String) (poolSize : ℕ) (s : CachedIdGenerator)
    (h : jsFalsy s.idPool.getLast? = true) :
    generateId gen poolSize s =
      (gen (s.ctr + poolSize),
        ⟨s.ctr + poolSize + 1, (List.range poolSize).map fun i => gen (s.ctr + i)⟩) := by
  simp [generateId, h, regenerateIdPool]

theorem generateId_empty (gen : ℕ → String) (poolSize : ℕ) (s : CachedIdGenerator)
    (h : s.idPool = []) :
    generateId gen poolSize s =
      (gen (s.ctr + poolSize),
        ⟨s.ctr + poolSize + 1, (List.range poolSize).map fun i => gen (s.ctr + i)⟩) :=
  generateId_falsy gen poolSize s (by simp [h, jsFalsy])

theorem generateId_truthy (gen : ℕ → String) (poolSize : ℕ) (s : CachedIdGenerator)
    (v : String) (h : s.idPool.getLast? = some v) (hv : v ≠ "") :
    generateId gen poolSize s = (v, ⟨s.ctr, s.idPool.dropLast⟩) := by
  simp [generateId, jsFalsy, h, hv]

theorem jsFalsy_eq_false {o : Option String} (h : jsFalsy o = false) :
    ∃ v, o = some v ∧ v ≠ "" := by
  cases o with
  | none => simp [jsFalsy] at h
  | some v => exact ⟨v, rfl, by simpa [jsFalsy] using h⟩

/-- C1: a `generateId` call that finds the pool empty replaces the pool
contents with `poolSize` fresh identifiers (stream positions `ctr` to
`ctr + poolSize - 1`), and returns the next identifier generated after
those — which, for an injective uuid stream, is not an element of the newly
regenerated pool. -/
theorem C1_empty_pool_regenerates_and_returns_fresh (gen : ℕ → String) (poolSize : ℕ)
    (s : CachedIdGenerator) (h : s.idPool = []) :
    (generateId gen poolSize s).2.idPool =
        ((List.range poolSize).map fun i => gen (s.ctr + i)) ∧
    (generateId gen poolSize s).2.ctr = s.ctr + poolSize + 1 ∧
    (generateId gen poolSize s).1 = gen (s.ctr + poolSize) ∧
    (Function.Injective gen →
      (generateId gen poolSize s).1 ∉ (generateId gen poolSize s).2.idPool) := by
  rw [generateId_empty gen poolSize s h]
  refine ⟨rfl, rfl, rfl, ?_⟩
  intro hinj hmem
  obtain ⟨i, hi, heq⟩ := List.mem_map.mp hmem
  have hip := hinj heq
  have hir := List.mem_range.mp hi
  omega

/-- C1 witness. -/
theorem C1_witness :
    (generateId wgen 2 ⟨0, []⟩).2.idPool = ((List.range 2).map fun i => wgen (0 + i)) ∧
    (generateId wgen 2 ⟨0, []⟩).2.ctr = 0 + 2 + 1 ∧
    (generateId wgen 2 ⟨0, []⟩).1 = wgen (0 + 2) ∧
    (Function.Injective wgen →
      (generateId wgen 2 ⟨0, []⟩).1 ∉ (generateId wgen 2 ⟨0, []⟩).2.idPool) :=
  C1_empty_pool_regenerates_and_returns_fresh wgen 2 ⟨0, []⟩ rfl

theorem getLast?_map_range (f : ℕ → String) {n : ℕ} (hn : 0 < n) :
    ((List.range n).map f).getLast? = some (f (n - 1)) := by
  obtain ⟨m, rfl⟩ : ∃ m, n = m + 1 := ⟨n - 1, by omega⟩
  rw [List.range_succ, List.map_append]
  simp

/-- C2 counterexample: `regenerateIdPool` is `async` but contains no
`await`, so it completes inside the exhausting call.  Starting from an
exhausted `CachedIdGenerator` (pool size 2), the pool is non-empty right
after the call that observed exhaustion, and the immediately following call
returns an element popped from the regenerated pool — contradicting the
claim that it falls back to direct generation. -/
theorem C2_counterexample :
    (generateId wgen 2 ⟨0, []⟩).2.idPool ≠ [] ∧
    (generateId wgen 2 (generateId wgen 2 ⟨0, []⟩).2).1
      ∈ (generateId wgen 2 ⟨0, []⟩).2.idPool := by
  decide

/-- C2 amended: regeneration runs synchronously to completion within the
call that observes exhaustion, so (for a positive pool size and a uuid
stream of non-empty strings) the immediately following call receives the
last element popped from the freshly regenerated pool. -/
theorem C2_next_call_pops_regenerated_pool (gen : ℕ → String) (poolSize : ℕ)
    (s : CachedIdGenerator) (hcap : 0 < poolSize) (hne : ∀ n, gen n ≠ "")
    (h : s.idPool = []) :
    (generateId gen poolSize s).2.idPool ≠ [] ∧
    (generateId gen poolSize (generateId gen poolSize s).2).1
      = gen (s.ctr + (poolSize - 1)) ∧
    (generateId gen poolSize (generateId gen poolSize s).2).1
      ∈ (generateId gen poolSize s).2.idPool := by
  rw [generateId_empty gen poolSize s h]
  have hlast : (((List.range poolSize).map fun i => gen (s.ctr + i)).getLast?)
      = some (gen (s.ctr + (poolSize - 1))) := getLast?_map_range _ hcap
  refine ⟨?_, ?_, ?_⟩
  · intro hnil
    have := congrArg List.length hnil
    simp at this
    omega
  · rw [generateId_truthy gen poolSize _ _ hlast (hne _)]
  · rw [generateId_truthy gen poolSize _ _ hlast (hne _)]
    exact List.mem_map.mpr ⟨poolSize - 1, List.mem_range.mpr (by omega), rfl⟩

/-- C2 amended witness. -/
theorem C2_next_call_pops_regenerated_pool_witness :
    (generateId wgen 2 ⟨0, []⟩).2.idPool ≠ [] ∧
    (generateId wgen 2 (generateId wgen 2 ⟨0, []⟩).2).1 = wgen (0 + (2 - 1)) ∧
    (generateId wgen 2 (generateId wgen 2 ⟨0, []⟩).2).1
      ∈ (generateId wgen 2 ⟨0, []⟩).2.idPool :=
  C2_next_call_pops_regenerated_pool wgen 2 ⟨0, []⟩ (by decide) wgen_ne rfl

/-- C9: a falsy popped value — `undefined` from an empty pool or a stored
empty string — is treated as exhaustion: the popped empty string is
discarded, the whole pool is regenerated, and a freshly generated
identifier is returned; consequently a `generateId` result that is the
empty string can only be a freshly generated one, never a stored pool
element. -/
theorem C9_falsy_pop_treated_as_exhaustion (gen : ℕ → String) (poolSize : ℕ)
    (s : CachedIdGenerator) (h : s.idPool.getLast? = some "") :
    (generateId gen poolSize s).1 = gen (s.ctr + poolSize) ∧
    (generateId gen poolSize s).2.idPool =
        ((List.range poolSize).map fun i => gen (s.ctr + i)) ∧
    (generateId gen poolSize s).2.ctr = s.ctr + poolSize + 1 ∧
    (∀ s' : CachedIdGenerator, (generateId gen poolSize s').1 = "" →
        (generateId gen poolSize s').1 = gen (s'.ctr + poolSize)) := by
  rw [generateId_falsy gen poolSize s (by simp [jsFalsy, h])]
  refine ⟨rfl, rfl, rfl, ?_⟩
  intro s' hres
  cases hf : jsFalsy s'.idPool.getLast? with
  | true => rw [generateId_falsy gen poolSize s' hf]
  | false =>
    obtain ⟨v, ho, hv⟩ := jsFalsy_eq_false hf
    rw [generateId_truthy gen poolSize s' v ho hv] at hres
    exact absurd hres hv

/-- C9 witness. -/
theorem C9_falsy_pop_treated_as_exhaustion_witness :
    (generateId wgen 1 ⟨0, [""]⟩).1 = wgen (0 + 1) ∧
    (generateId wgen 1 ⟨0, [""]⟩).2.idPool =
        ((List.range 1).map fun i => wgen (0 + i)) ∧
    (generateId wgen 1 ⟨0, [""]⟩).2.ctr = 0 + 1 + 1 ∧
    (∀ s' : CachedIdGenerator, (generateId wgen 1 s').1 = "" →
        (generateId wgen 1 s').1 = wgen (s'.ctr + 1)) :=
  C9_falsy_pop_treated_as_exhaustion wgen 1 ⟨0, [""]⟩ rfl

theorem reachable_pool_bound (gen : ℕ → String) (poolSize : ℕ) (s : CachedIdGenerator)
    (hs : Reachable gen poolSize s) :
    s.idPool.length ≤ poolSize ∧ ∀ x ∈ s.idPool, ∃ n, x = gen n := by
  induction hs with
  | init =>
    refine ⟨by simp [CachedIdGenerator.new, regenerateIdPool], ?_⟩
    intro x hx
    simp only [CachedIdGenerator.new, regenerateIdPool, List.mem_map] at hx
    obtain ⟨i, _, rfl⟩ := hx
    exact ⟨_, rfl⟩
  | step s hs ih =>
    cases hf : jsFalsy s.idPool.getLast? with
    | false =>
      obtain ⟨v, ho, hv⟩ := jsFalsy_eq_false hf
      rw [generateId_truthy gen poolSize s v ho hv]
      refine ⟨?_, ?_⟩
      · simp only [List.length_dropLast]
        omega
      · intro x hx
        exact ih.2 x (List.dropLast_subset _ hx)
    | true =>
      rw [generateId_falsy gen poolSize s hf]
      refine ⟨by simp, ?_⟩
      intro x hx
      simp only [List.mem_map] at hx
      obtain ⟨i, _, rfl⟩ := hx
      exact ⟨_, rfl⟩

/-- C3: over all reachable states of a `CachedIdGenerator` (for a uuid
stream of non-empty strings, as `uuidv4` produces), the pool length never
exceeds the pool size and this bound is preserved by every call; a call on
a non-empty pool removes exactly one element, and a call on an empty pool
regenerates it to the full pool size. -/
theorem C3_pool_size_invariant (gen : ℕ → String) (poolSize : ℕ) (s : CachedIdGenerator)
    (hne : ∀ n, gen n ≠ "") (hs : Reachable gen poolSize s) :
    s.idPool.length ≤ poolSize ∧
    (generateId gen poolSize s).2.idPool.length ≤ poolSize ∧
    (s.idPool ≠ [] →
      (generateId gen poolSize s).2.idPool.length = s.idPool.length - 1) ∧
    (s.idPool = [] → (generateId gen poolSize s).2.idPool.length = poolSize) := by
  have inv := reachable_pool_bound gen poolSize s hs
  refine ⟨inv.1, (reachable_pool_bound gen poolSize _ (Reachable.step s hs)).1, ?_, ?_⟩
  · intro hnil
    cases hlast : s.idPool.getLast? with
    | none => exact absurd (List.getLast?_eq_none_iff.mp hlast) hnil
    | some v =>
      obtain ⟨n, rfl⟩ := inv.2 v (List.mem_of_getLast?_eq_some hlast)
      rw [generateId_truthy gen poolSize s _ hlast (hne n)]
      simp
  · intro hnil
    rw [generateId_empty gen poolSize s hnil]
    simp

/-- C3 witness. -/
theorem C3_pool_size_invariant_witness :
    (CachedIdGenerator.new (fun _ => "a") 2).idPool.length ≤ 2 ∧
    (generateId (fun _ => "a") 2 (CachedIdGenerator.new (fun _ => "a") 2)).2.idPool.length ≤ 2 ∧
    ((CachedIdGenerator.new (fun _ => "a") 2).idPool ≠ [] →
      (generateId (fun _ => "a") 2 (CachedIdGenerator.new (fun _ => "a") 2)).2.idPool.length =
        (CachedIdGenerator.new (fun _ => "a") 2).idPool.length - 1) ∧
    ((CachedIdGenerator.new (fun _ => "a") 2).idPool = [] →
      (generateId (fun _ => "a") 2 (CachedIdGenerator.new (fun _ => "a") 2)).2.idPool.length = 2) :=
  C3_pool_size_invariant (fun _ => "a") 2 (CachedIdGenerator.new (fun _ => "a") 2)
    (fun _ => (by decide : ("a" : String) ≠ "")) Reachable.init

theorem runCalls_range_pool (gen : ℕ → String) (poolSize : ℕ) (hne : ∀ n, gen n ≠ "") :
    ∀ (k m c : ℕ), k ≤ m →
      runCalls gen poolSize k ⟨c, (List.range m).map gen⟩ =
        (((List.range' (m - k) k).reverse).map gen, ⟨c, (List.range (m - k)).map gen⟩) := by
  intro k
  induction k with
  | zero =>
    intro m c _
    simp [runCalls]
  | succ k ih =>
    intro m c hk
    obtain ⟨m', rfl⟩ : ∃ m', m = m' + 1 := ⟨m - 1, by omega⟩
    have hlast : ((List.range (m' + 1)).map gen).getLast? = some (gen m') := by
      simpa using getLast?_map_range gen (Nat.succ_pos m')
    have hdrop : ((List.range (m' + 1)).map gen).dropLast = (List.range m').map gen := by
      rw [List.range_succ, List.map_append]
      simp
    simp only [runCalls]
    rw [generateId_truthy gen poolSize _ _ hlast (hne m')]
    simp only [hdrop]
    rw [ih m' c (by omega)]
    have hms : m' + 1 - (k + 1) = m' - k := by omega
    have hconcat : List.range' (m' - k) (k + 1) = List.range' (m' - k) k ++ [m'] := by
      rw [List.range'_concat]
      congr 2
      omega
    rw [hms, hconcat]
    simp

/-- The constructor immediately fills the pool with the first `poolSize`
stream outputs, in stream order. -/
theorem new_eq (gen : ℕ → String) (poolSize : ℕ) :
    CachedIdGenerator.new gen poolSize = ⟨poolSize, (List.range poolSize).map gen⟩ := by
  simp [CachedIdGenerator.new, regenerateIdPool]

/-- C4: a freshly constructed `CachedIdGenerator` with pool size `C > 0`
(and an injective uuid stream of non-empty strings, as `uuidv4` provides)
returns on its first `C` calls exactly the `C` pairwise-distinct
identifiers of the initial pool (in reverse fill order), with no
regeneration triggered (the stream position is still `C` afterwards and the
pool is exactly exhausted); the `(C+1)`-th call then returns a freshly
generated identifier — the stream output at position `2C`, distinct from
all `C` previous results. -/
theorem C4_fresh_source_first_calls (poolSize : ℕ) (gen : ℕ → String)
    (hcap : 0 < poolSize) (hinj : Function.Injective gen) (hne : ∀ n, gen n ≠ "") :
    (runCalls gen poolSize poolSize (CachedIdGenerator.new gen poolSize)).1.Nodup ∧
    (runCalls gen poolSize poolSize (CachedIdGenerator.new gen poolSize)).1
      = ((List.range poolSize).reverse).map gen ∧
    (runCalls gen poolSize poolSize (CachedIdGenerator.new gen poolSize)).2
      = ⟨poolSize, []⟩ ∧
    (generateId gen poolSize
        (runCalls gen poolSize poolSize (CachedIdGenerator.new gen poolSize)).2).1
      = gen (poolSize + poolSize) ∧
    (generateId gen poolSize
        (runCalls gen poolSize poolSize (CachedIdGenerator.new gen poolSize)).2).1
      ∉ (runCalls gen poolSize poolSize (CachedIdGenerator.new gen poolSize)).1 := by
  have hrun : runCalls gen poolSize poolSize (CachedIdGenerator.new gen poolSize) =
      (((List.range poolSize).reverse).map gen, ⟨poolSize, []⟩) := by
    rw [new_eq, runCalls_range_pool gen poolSize hne poolSize poolSize poolSize le_rfl,
      Nat.sub_self]
    simp [List.range_eq_range']
  rw [hrun]
  have hfresh : (generateId gen poolSize
      (⟨poolSize, []⟩ : CachedIdGenerator)).1 = gen (poolSize + poolSize) := by
    rw [generateId_empty gen poolSize _ rfl]
  refine ⟨?_, rfl, rfl, hfresh, ?_⟩
  · exact (List.nodup_reverse.mpr (List.nodup_range poolSize)).map hinj
  · rw [hfresh]
    intro hmem
    obtain ⟨i, hi, heq⟩ := List.mem_map.mp hmem
    have hip := hinj heq
    have hir := List.mem_range.mp (List.mem_reverse.mp hi)
    omega

/-- C4 witness. -/
theorem C4_fresh_source_first_calls_witness :
    (runCalls wgen 2 2 (CachedIdGenerator.new wgen 2)).1.Nodup ∧
    (runCalls wgen 2 2 (CachedIdGenerator.new wgen 2)).1
      = ((List.range 2).reverse).map wgen ∧
    (runCalls wgen 2 2 (CachedIdGenerator.new wgen 2)).2 = ⟨2, []⟩ ∧
    (generateId wgen 2 (runCalls wgen 2 2 (CachedIdGenerator.new wgen 2)).2).1
      = wgen (2 + 2) ∧
    (generateId wgen 2 (runCalls wgen 2 2 (CachedIdGenerator.new wgen 2)).2).1
      ∉ (runCalls wgen 2 2 (CachedIdGenerator.new wgen 2)).1 :=
  C4_fresh_source_first_calls 2 wgen (by decide) wgen_inj wgen_ne

theorem drop_flatMap_blocks (f : ℕ → List ℚ) (N : ℕ) (hf : ∀ i, (f i).length = N) :
    ∀ (k s T : ℕ), k ≤ T →
      ((List.range' s T).flatMap f).drop (k * N) = (List.range' (s + k) (T - k)).flatMap f := by
  intro k
  induction k with
  | zero =>
    intro s T _
    simp
  | succ k ih =>
    intro s T hk
    obtain ⟨T', rfl⟩ : ∃ T', T = T' + 1 := ⟨T - 1, by omega⟩
    rw [List.range'_succ]
    simp only [List.flatMap_cons]
    rw [show (k + 1) * N = (f s).length + k * N by rw [hf, Nat.succ_mul]; omega]
    rw [List.drop_append, ih (s + 1) T' (by omega)]
    have h1 : s + 1 + k = s + (k + 1) := by omega
    have h2 : T' - k = T' + 1 - (k + 1) := by omega
    rw [h1, h2]

theorem jsSlice_flatMap_blocks (f : ℕ → List ℚ) (N : ℕ) (hf : ∀ i, (f i).length = N)
    (T i : ℕ) (hi : i < T) :
    jsSlice ((List.range T).flatMap f) (i * N) ((i + 1) * N) = f i := by
  unfold jsSlice
  rw [List.range_eq_range',
    drop_flatMap_blocks f N hf i 0 T (by omega)]
  obtain ⟨T', hT'⟩ : ∃ T', T - i = T' + 1 := ⟨T - i - 1, by omega⟩
  rw [hT', List.range'_succ]
  simp only [List.flatMap_cons, Nat.zero_add]
  rw [show (i + 1) * N - i * N = N by rw [Nat.succ_mul]; omega]
  exact List.take_left' (hf i)

/-- C5: `runTrials` over `T` trials of `N` calls each returns exactly `T`
results in trial order, the `i`-th being the arithmetic mean, in
microseconds, of the `N` per-call millisecond durations of trial `i`, each
multiplied by 1000.  (In the source `N` is the constant `ID_COUNT`; the
durations measured by `performance.now()` are the abstract stream `dur`.) -/
theorem C5_runTrials_trial_means (dur : ℕ → ℚ) (T N i : ℕ) (hi : i < T) (hN : 0 < N) :
    (runTrials dur T N).length = T ∧
    (runTrials dur T N).get? i =
      some (JSNum.num
        ((((List.range N).map fun j => dur (i * N + j) * 1000).sum) / (N : ℚ))) := by
  constructor
  · simp [runTrials]
  · unfold runTrials
    rw [List.get?_map, List.get?_range hi]
    simp only [Option.map_some']
    have hf : ∀ a, (((List.range N).map
        fun j => dur (a * N + j) * MICROSECONDS_CONVERSION)).length = N := by
      intro a
      simp
    rw [jsSlice_flatMap_blocks _ N hf T i hi]
    have hsum : (((List.range N).map
          fun j => dur (i * N + j) * MICROSECONDS_CONVERSION)).foldl (· + ·) 0 =
        (((List.range N).map fun j => dur (i * N + j) * 1000)).sum := by
      rw [List.sum_eq_foldl]
      simp only [MICROSECONDS_CONVERSION]
    rw [hsum, hf i, jsDiv, if_neg (by exact_mod_cast hN.ne')]

/-- C5 witness. -/
theorem C5_runTrials_trial_means_witness :
    (runTrials (fun k => (k : ℚ)) 2 2).length = 2 ∧
    (runTrials (fun k => (k : ℚ)) 2 2).get? 1 =
      some (JSNum.num
        ((((List.range 2).map fun j => ((1 * 2 + j : ℕ) : ℚ) * 1000).sum) / ((2 : ℕ) : ℚ))) :=
  C5_runTrials_trial_means (fun k => (k : ℚ)) 2 2 1 (by decide) (by decide)

/-- C8: with zero identifiers per trial every trial mean is `NaN`
(JavaScript `0 / 0`), and `NaN` is distinguishable from every real mean —
in particular from the `0` of a genuinely zero-duration trial. -/
theorem C8_zero_idsPerTrial_yields_nan (dur : ℕ → ℚ) (T : ℕ) :
    runTrials dur T 0 = List.replicate T JSNum.nan ∧
    ∀ q : ℚ, JSNum.nan ≠ JSNum.num q := by
  constructor
  · unfold runTrials
    simp [jsSlice, jsDiv]
  · intro q h
    exact JSNum.noConfusion h

theorem fmtFixed2_eval (q : ℚ) (n : ℕ) (hq : 0 ≤ q) (h : ⌊q * 100 + 1 / 2⌋ = (n : ℤ)) :
    fmtFixed2 q = toString (n / 100) ++ "." ++
      (if n % 100 < 10 then "0" else "") ++ toString (n % 100) := by
  unfold fmtFixed2 fmtFixed2Pos
  rw [if_neg (not_lt.mpr hq), h]
  simp

theorem differenceLabel_pos (b c : ℚ) (hb : 0 < b) (hc : 0 < c) :
    differenceLabel (some (.num b)) (some (.num c)) =
      if c < b then fmtFixed2 (b / c) ++ "x faster"
      else fmtFixed2 (c / b) ++ "x slower" := by
  have hbc : b / c ≠ 0 := div_ne_zero hb.ne' hc.ne'
  simp only [differenceLabel, jsValOf, jsDivN, jsDiv, if_neg hc.ne', if_neg hbc, jsGt,
    jsToFixed2, one_div_div, decide_eq_true_eq]
  simp only [one_lt_div hc]

/-- C6: for positive baseline and candidate means the report row's label is
the ratio baseline/candidate rendered to two decimals with "x faster" when
the baseline mean exceeds the candidate mean, and otherwise — ties
included — the ratio candidate/baseline rendered to two decimals with
"x slower"; concretely, 10 vs 5 gives "2.00x faster", 5 vs 10 gives
"2.00x slower", and any tie gives "1.00x slower". -/
theorem C6_relative_speed_label (b c : ℚ) (hb : 0 < b) (hc : 0 < c) :
    printComparisonTable [JSNum.num b] [JSNum.num c] =
      Except.ok [{ trial := 1,
                   normalGeneration := fmtFixed2 b ++ "µs",
                   cachedGeneration := fmtFixed2 c ++ "µs",
                   difference := if c < b then fmtFixed2 (b / c) ++ "x faster"
                     else fmtFixed2 (c / b) ++ "x slower" }] ∧
    (b = c → differenceLabel (some (JSNum.num b)) (some (JSNum.num c)) = "1.00x slower") ∧
    differenceLabel (some (JSNum.num 10)) (some (JSNum.num 5)) = "2.00x faster" ∧
    differenceLabel (some (JSNum.num 5)) (some (JSNum.num 10)) = "2.00x slower" := by
  have hfmt1 : fmtFixed2 1 = "1.00" := by
    rw [fmtFixed2_eval 1 100 (by norm_num) (by norm_num)]
    decide
  have hfmt2 : fmtFixed2 2 = "2.00" := by
    rw [fmtFixed2_eval 2 200 (by norm_num) (by norm_num)]
    decide
  refine ⟨?_, ?_, ?_, ?_⟩
  · simp only [printComparisonTable, List.length_cons, List.length_nil, List.range_succ,
      List.range_zero, List.nil_append, buildRows, tableRow, List.get?, jsToFixed2E,
      jsToFixed2, Bind.bind, Except.bind]
    rw [differenceLabel_pos b c hb hc]
  · intro hbc
    subst hbc
    rw [differenceLabel_pos b b hb hb, if_neg (lt_irrefl b), div_self hb.ne', hfmt1]
    rfl
  · rw [differenceLabel_pos 10 5 (by norm_num) (by norm_num), if_pos (by norm_num),
      show (10 : ℚ) / 5 = 2 by norm_num, hfmt2]
    rfl
  · rw [differenceLabel_pos 5 10 (by norm_num) (by norm_num), if_neg (by norm_num),
      show (10 : ℚ) / 5 = 2 by norm_num, hfmt2]
    rfl

/-- C6 witness. -/
theorem C6_relative_speed_label_witness :
    printComparisonTable [JSNum.num 10] [JSNum.num 5] =
      Except.ok [{ trial := 1,
                   normalGeneration := fmtFixed2 10 ++ "µs",
                   cachedGeneration := fmtFixed2 5 ++ "µs",
                   difference := if (5 : ℚ) < 10 then fmtFixed2 (10 / 5) ++ "x faster"
                     else fmtFixed2 (5 / 10) ++ "x slower" }] ∧
    ((10 : ℚ) = 5 →
      differenceLabel (some (JSNum.num 10)) (some (JSNum.num 5)) = "1.00x slower") ∧
    differenceLabel (some (JSNum.num 10)) (some (JSNum.num 5)) = "2.00x faster" ∧
    differenceLabel (some (JSNum.num 5)) (some (JSNum.num 10)) = "2.00x slower" :=
  C6_relative_speed_label 10 5 (by decide) (by decide)

/-- C7 counterexample: running the experiment with a non-positive (zero)
trial count is accepted — it completes with an empty table — instead of
being rejected with a `ConfigurationError`; no code path validates the
configuration. -/
theorem C7_counterexample :
    runExperiment wgen (fun _ => 0) (fun _ => 0) 0 = Except.ok [] ∧
    runExperiment wgen (fun _ => 0) (fun _ => 0) 0
      ≠ Except.error JsError.configurationError := by
  refine ⟨rfl, ?_⟩
  intro h
  exact Except.noConfusion h

/-- C7 amended: no configuration is validated anywhere.  The pool capacity
is a fixed constant that cannot be supplied at construction and the
constructor always succeeds, filling the pool to that capacity; a
non-positive (zero) trial count is accepted by the experiment, which
completes with an empty report rather than raising a `ConfigurationError`. -/
theorem C7_no_configuration_validation (gen : ℕ → String) (durNormal durCached : ℕ → ℚ) :
    runExperiment gen durNormal durCached 0 = Except.ok [] ∧
    ∀ poolSize : ℕ, (CachedIdGenerator.new gen poolSize).idPool.length = poolSize := by
  refine ⟨rfl, ?_⟩
  intro poolSize
  rw [new_eq]
  simp

theorem tableRow_ok (ns cs : List JSNum) (i : ℕ) (hn : i < ns.length) (hc : i < cs.length) :
    tableRow ns cs i = Except.ok
      { trial := i + 1, normalGeneration := jsToFixed2 ns[i] ++ "µs",
        cachedGeneration := jsToFixed2 cs[i] ++ "µs",
        difference := differenceLabel (some ns[i]) (some cs[i]) } := by
  have ha : ns[i]? = some ns[i] := List.getElem?_eq_getElem hn
  have hb : cs[i]? = some cs[i] := List.getElem?_eq_getElem hc
  simp [tableRow, ha, hb, jsToFixed2E, Bind.bind, Except.bind]

theorem tableRow_err (ns cs : List JSNum) (i : ℕ) (hn : i < ns.length) (hc : cs.length ≤ i) :
    tableRow ns cs i = Except.error JsError.typeError := by
  have ha : ns[i]? = some ns[i] := List.getElem?_eq_getElem hn
  have hb : cs[i]? = none := List.getElem?_eq_none hc
  simp [tableRow, ha, hb, jsToFixed2E, Bind.bind, Except.bind]

theorem buildRows_ok (ns cs : List JSNum) :
    ∀ l : List ℕ, (∀ i ∈ l, i < ns.length ∧ i < cs.length) →
      ∃ rows, buildRows ns cs l = Except.ok rows ∧ rows.length = l.length := by
  intro l
  induction l with
  | nil => exact fun _ => ⟨[], rfl, rfl⟩
  | cons i is ih =>
    intro h
    have h1 := (h i (List.mem_cons_self i is)).1
    have h2 := (h i (List.mem_cons_self i is)).2
    have hr := tableRow_ok ns cs i h1 h2
    obtain ⟨rows, hrows, hlen⟩ := ih fun j hj => h j (List.mem_cons_of_mem i hj)
    refine ⟨{ trial := i + 1, normalGeneration := jsToFixed2 ns[i] ++ "µs",
              cachedGeneration := jsToFixed2 cs[i] ++ "µs",
              difference := differenceLabel (some ns[i]) (some cs[i]) } :: rows,
      ?_, by simp [hlen]⟩
    simp [buildRows, Bind.bind, Except.bind, hr, hrows]

theorem buildRows_err (ns cs : List JSNum) :
    ∀ l : List ℕ, (∀ i ∈ l, i < ns.length) → (∃ i ∈ l, cs.length ≤ i) →
      buildRows ns cs l = Except.error JsError.typeError := by
  intro l
  induction l with
  | nil =>
    rintro _ ⟨i, hi, _⟩
    cases hi
  | cons i is ih =>
    intro hn hex
    by_cases hc : cs.length ≤ i
    · simp [buildRows, Bind.bind, Except.bind,
        tableRow_err ns cs i (hn i (List.mem_cons_self i is)) hc]
    · have hr := tableRow_ok ns cs i (hn i (List.mem_cons_self i is)) (by omega)
      have hex' : ∃ j ∈ is, cs.length ≤ j := by
        obtain ⟨j, hj, hcj⟩ := hex
        rcases List.mem_cons.mp hj with rfl | hj'
        · omega
        · exact ⟨j, hj', hcj⟩
      simp [buildRows, Bind.bind, Except.bind, hr,
        ih (fun j hj => hn j (List.mem_cons_of_mem i hj)) hex']

/-- C10 counterexample: with a single baseline mean and an empty candidate
sequence, `printComparisonTable` does not produce a row built from the
absent candidate value — it throws a `TypeError` (calling `.toFixed(2)` on
`undefined`) before any row is pushed. -/
theorem C10_counterexample :
    printComparisonTable [JSNum.num 1] [] = Except.error JsError.typeError := rfl

/-- C10 amended: `printComparisonTable` iterates once per baseline element
and completes with exactly one row per element only when the candidate
sequence is at least as long as the baseline; when the candidate sequence
is shorter, the iteration at the first out-of-range index throws a
`TypeError` (`.toFixed(2)` on the `undefined` indexed value), so the
function fails rather than completing. -/
theorem C10_rows_iff_candidate_covers (ns cs : List JSNum) :
    (ns.length ≤ cs.length →
      ∃ rows, printComparisonTable ns cs = Except.ok rows ∧ rows.length = ns.length) ∧
    (cs.length < ns.length →
      printComparisonTable ns cs = Except.error JsError.typeError) := by
  constructor
  · intro h
    obtain ⟨rows, h1, h2⟩ := buildRows_ok ns cs (List.range ns.length) fun i hi =>
      ⟨List.mem_range.mp hi, lt_of_lt_of_le (List.mem_range.mp hi) h⟩
    exact ⟨rows, h1, by simpa using h2⟩
  · intro h
    exact buildRows_err ns cs (List.range ns.length)
      (fun i hi => List.mem_range.mp hi)
      ⟨cs.length, List.mem_range.mpr h, le_rfl⟩

/-- C10 amended witness. -/
theorem C10_rows_iff_candidate_covers_witness :
    (∃ rows, printComparisonTable [JSNum.num 1] [JSNum.num 1] = Except.ok rows ∧
      rows.length = [JSNum.num 1].length) ∧
    printComparisonTable [JSNum.num 1, JSNum.num 1] [JSNum.num 1]
      = Except.error JsError.typeError :=
  ⟨(C10_rows_iff_candidate_covers [JSNum.num 1] [JSNum.num 1]).1 (by decide),
   (C10_rows_iff_candidate_covers [JSNum.num 1, JSNum.num 1] [JSNum.num 1]).2 (by decide)⟩

end IdCaching
